import Mathlib

/-!
Shallow embedding of the `kadaan/packer-post-processor-shell` repository
(Go sources `shell/post-processor.go` and the `shell` package artifact file),
together with theorems checking the repository specification against it.

Modelling conventions:
* Go `nil` versus empty slices is modelled with `Option (List String)`.
* Calls into the external packer/interpolate host libraries
  (`config.Decode`, `interpolate.Validate`, `interpolate.Render`) are outside
  this repository; template rendering is modelled as the identity and template
  validation as always succeeding, which is exact whenever the configuration
  strings contain no template expressions.
* The filesystem is modelled as the list of existing paths, `os.Stat` and the
  spawned subprocesses as explicit oracles threaded through `PostProcess`.
-/

namespace Shell

/-- Splitting a character list at the first occurrence of `sep`: the part
before it, and — when `sep` occurs — the part after it (later occurrences
kept verbatim). -/
def splitN2Chars (sep : Char) : List Char → List Char × Option (List Char)
  | [] => ([], none)
  | c :: cs =>
    if c = sep then ([], some cs)
    else
      let r := splitN2Chars sep cs
      (c :: r.1, r.2)

/-- Go `strings.SplitN s sep 2` for a one-character separator (the source
only uses `"="`): split at the first occurrence of `sep`, returning the
whole string as a one-element list when `sep` does not occur. -/
def splitN2 (s : String) (sep : Char) : List String :=
  match splitN2Chars sep s.data with
  | (k, none) => [⟨k⟩]
  | (k, some v) => [⟨k⟩, ⟨v⟩]

/-- Raw configuration as decoded from the user's JSON, mirroring the fields of
`Config` in `shell/post-processor.go` before `Configure` normalizes them.
`none` models a Go `nil` slice. -/
structure RawConfig where
  Inline : Option (List String)
  InlineShebang : String
  Script : String
  Vars : Option (List String)
  Scripts : Option (List String)
  TargetPath : String
  KeepInputArtifact : Bool
  PackerBuildName : String
  PackerBuilderType : String
  deriving DecidableEq, Repr

/-- The configuration after `Configure` has defaulted and normalized it. -/
structure Config where
  Inline : Option (List String)
  InlineShebang : String
  Script : String
  Vars : List String
  Scripts : List String
  TargetPath : String
  KeepInputArtifact : Bool
  PackerBuildName : String
  PackerBuilderType : String
  deriving DecidableEq, Repr

/-- Error message of the `script`/`scripts` mutual-exclusion check
(post-processor.go line 85). -/
def mutualExclusionMsg : String :=
  "Only one of script or scripts can be specified."

/-- Error message of the must-specify-one check (line 129). -/
def mustSpecifyMsg : String :=
  "Either a script file or inline script must be specified."

/-- Error message of the not-both check for scripts versus inline (line 132). -/
def notBothMsg : String :=
  "Only a script file or an inline script can be specified, not both."

/-- Error message for a script path whose `os.Stat` fails (line 138). -/
def badScriptMsg (path statErr : String) : String :=
  "Bad script \x27" ++ path ++ "\x27: " ++ statErr

/-- Error message for a malformed environment variable entry (line 147). -/
def envVarMsg (kv : String) : String :=
  "Environment variable not in format \x27key=value\x27: " ++ kv

/-- The check on one environment entry (lines 143-149): `strings.SplitN kv "=" 2`
must yield exactly two parts with a non-empty key. `true` means malformed. -/
def varMalformed (kv : String) : Bool :=
  let vs := splitN2 kv '='
  vs.length != 2 || vs.headD "" == ""

/-- `Configure` (post-processor.go lines 57-156). `stat path` returns
`some errText` when `os.Stat path` fails and `none` when it succeeds.
Errors are accumulated across all checks into one `packer.MultiError`,
modelled as the list of messages in append order; the aggregate is returned
exactly when it is non-empty. -/
def Configure (raw : RawConfig) (stat : String → Option String) :
    Except (List String) Config :=
  let shebang := if raw.InlineShebang = "" then "/bin/sh" else raw.InlineShebang
  let scripts0 := raw.Scripts.getD []
  let vars := raw.Vars.getD []
  let mxErrs : List String :=
    if raw.Script ≠ "" ∧ 0 < scripts0.length then [mutualExclusionMsg] else []
  let scripts := if raw.Script ≠ "" then [raw.Script] else scripts0
  let presErrs : List String :=
    if scripts.length = 0 ∧ raw.Inline = none then [mustSpecifyMsg]
    else if 0 < scripts.length ∧ raw.Inline ≠ none then [notBothMsg]
    else []
  let statErrs := scripts.filterMap
    (fun path => (stat path).map (fun e => badScriptMsg path e))
  let varErrs := (vars.filter varMalformed).map envVarMsg
  let errs := mxErrs ++ presErrs ++ statErrs ++ varErrs
  if 0 < errs.length then .error errs
  else .ok ⟨raw.Inline, shebang, raw.Script, vars, scripts, raw.TargetPath,
    raw.KeepInputArtifact, raw.PackerBuildName, raw.PackerBuilderType⟩

/-- The artifact produced by this post-processor (`shell` package artifact
file, struct `Artifact` with fields `Path`, `BuilderId`, `Provider`). -/
structure Artifact where
  Path : String
  BuilderId : String
  Provider : String
  deriving DecidableEq, Repr

/-- `NewArtifact provider builderId path`: the constructor's struct literal
sets only `Path` and `Provider`; the `builderId` argument is dropped, so the
`BuilderId` field keeps Go's zero value `""`. -/
def NewArtifact (provider builderId path : String) : Artifact :=
  { Path := path, BuilderId := "", Provider := provider }

/-- `os.Remove`: delete `path` from the filesystem `fs` (the list of existing
paths), failing when the path does not exist. -/
def osRemove (fs : List String) (path : String) :
    Except String (List String) :=
  if path ∈ fs then .ok (fs.filter (fun q => q ≠ path))
  else .error ("remove " ++ path ++ ": no such file or directory")

/-- `Artifact.Destroy`: `return os.Remove(a.Path)`. On success it yields the
filesystem with the artifact's stored path removed. -/
def Artifact.Destroy (a : Artifact) (fs : List String) :
    Except String (List String) :=
  osRemove fs a.Path

/-- The incoming `packer.Artifact` as `PostProcess` observes it: only
`Files()` and `BuilderId()` are consulted. -/
structure InArtifact where
  files : List String
  builderId : String
  deriving DecidableEq, Repr

/-- Outcome of one `cmd.Run()` of `/bin/sh script file`: `success = false`
covers both a spawn failure (empty captured stderr) and a non-zero exit. -/
structure RunResult where
  success : Bool
  stdout : String
  stderr : String
  deriving DecidableEq, Repr

/-- Environment of one `PostProcess` call: the oracles for `ioutil.TempFile`,
the buffered writes and flush of the inline script, `os.Open` on a script
path, and the subprocess runs, plus the two identifiers `name` and
`outputPath` that line 224 of the source references without defining them. -/
structure World where
  tmpFile : Except String String
  writeFail : Option (Nat × String)
  flushFail : Option String
  openFail : String → Option String
  run : String → String → RunResult
  name : String
  outputPath : String

/-- What `PostProcess` returns and leaves behind: the Go results
`(packer.Artifact, bool, error)`, the final filesystem, the trace of shell
invocations as `(script, file)` pairs in execution order, and the content
written to the temporary inline script (when one was materialized). -/
structure PPResult where
  artifact : Option Artifact
  keep : Bool
  err : Option String
  fs : List String
  invocations : List (String × String)
  written : Option String
  deriving DecidableEq, Repr

/-- Content the buffered writer accumulates for the inline script
(lines 174-180): the shebang line, then each command followed by a newline. -/
def materializeInline (shebang : String) (cmds : List String) : String :=
  cmds.foldl (fun buf c => buf ++ (c ++ "\n")) ("" ++ ("#!" ++ shebang ++ "\n"))

/-- Content written up to (not including) the `k`-th inline command, for the
partially-written file left when a `WriteString` fails at index `k`. -/
def materializeUpTo (shebang : String) (cmds : List String) (k : Nat) : String :=
  materializeInline shebang (cmds.take k)

/-- The first inline command whose `writer.WriteString` fails, if any:
`w.writeFail` only takes effect when its index is within the command list. -/
def firstWriteFailure (w : World) (cmds : List String) :
    Option (Nat × String) :=
  match w.writeFail with
  | some (i, msg) => if i < cmds.length then some (i, msg) else none
  | none => none

/-- Inner loop of `PostProcess` (lines 199-222) for one artifact file `f`:
open each script, run `/bin/sh path f`, stop at the first failure. Returns
the invocations performed and the error message, if any. -/
def runScriptsForFile (w : World) (f : String) :
    List String → List (String × String) × Option String
  | [] => ([], none)
  | path :: rest =>
    match w.openFail path with
    | some e => ([], some ("Error opening shell script: " ++ e))
    | none =>
      let r := w.run path f
      if r.success then
        let next := runScriptsForFile w f rest
        ((path, f) :: next.1, next.2)
      else
        ([(path, f)], some ("Unable to execute script: " ++ r.stderr))

/-- Outer loop of `PostProcess` (lines 198-223): file-major iteration,
aborting the whole nest at the first error. -/
def runFiles (w : World) (scripts : List String) :
    List String → List (String × String) × Option String
  | [] => ([], none)
  | f :: rest =>
    let res := runScriptsForFile w f scripts
    match res.2 with
    | some msg => (res.1, some msg)
    | none =>
      let next := runFiles w scripts rest
      (res.1 ++ next.1, next.2)

/-- All `(script, file)` pairs in file-major order, the invocation sequence
of a fully successful run. -/
def pairsOf (files scripts : List String) : List (String × String) :=
  files.flatMap (fun f => scripts.map (fun s => (s, f)))

/-- Shared tail of `PostProcess`: run the loop nest and assemble the return
values; on success the outgoing artifact is `NewArtifact name
artifact.BuilderId() outputPath` (line 224, with `name` and `outputPath`
taken from the environment because the source never defines them). -/
def finishLoop (w : World) (scripts : List String) (keep : Bool)
    (a : InArtifact) (fsRet : List String) (written : Option String) :
    PPResult :=
  let res := runFiles w scripts a.files
  match res.2 with
  | some msg => ⟨none, keep, some msg, fsRet, res.1, written⟩
  | none =>
    ⟨some (NewArtifact w.name a.builderId w.outputPath), keep, none, fsRet,
      res.1, written⟩

/-- `PostProcess` (lines 158-225). With inline commands configured it creates
a temporary script, registers `defer os.Remove(tf.Name())` (modelled by
removing the temp path from the filesystem on every subsequent return path),
writes the shebang line and the commands, flushes, then runs the loop nest
over `files × scripts`. `fs0` is the filesystem at entry. -/
def PostProcess (p : Config) (w : World) (a : InArtifact)
    (fs0 : List String) : PPResult :=
  let keep := p.KeepInputArtifact
  match p.Inline with
  | none => finishLoop w p.Scripts keep a fs0 none
  | some cmds =>
    match w.tmpFile with
    | .error e =>
      ⟨none, keep, some ("Error preparing shell script: " ++ e), fs0, [], none⟩
    | .ok tmp =>
      let fsR := (fs0 ++ [tmp]).filter (fun q => q ≠ tmp)
      let scripts := p.Scripts ++ [tmp]
      match firstWriteFailure w cmds with
      | some (i, msg) =>
        ⟨none, keep, some ("Error preparing shell script: " ++ msg), fsR, [],
          some (materializeUpTo p.InlineShebang cmds i)⟩
      | none =>
        match w.flushFail with
        | some msg =>
          ⟨none, keep, some ("Error preparing shell script: " ++ msg), fsR, [],
            some (materializeInline p.InlineShebang cmds)⟩
        | none =>
          finishLoop w scripts keep a fsR
            (some (materializeInline p.InlineShebang cmds))

/-! ### Basic lemmas about the loop nest -/

/-- If every script opens and runs successfully against `f`, the inner loop
performs one invocation per script in order and reports no error. -/
theorem runScriptsForFile_all_ok (w : World) (f : String)
    (scripts : List String)
    (h : ∀ s ∈ scripts, w.openFail s = none ∧ (w.run s f).success = true) :
    runScriptsForFile w f scripts = (scripts.map (fun s => (s, f)), none) := by
  induction scripts with
  | nil => rfl
  | cons s rest ih =>
    obtain ⟨ho, hr⟩ := h s (List.mem_cons_self s rest)
    simp only [runScriptsForFile, ho, hr, if_pos,
      ih (fun x hx => h x (List.mem_cons_of_mem s hx)), List.map_cons]

/-- If every pair opens and runs successfully, the loop nest performs the
file-major sequence of invocations and reports no error. -/
theorem runFiles_all_ok (w : World) (scripts files : List String)
    (h : ∀ f ∈ files, ∀ s ∈ scripts,
      w.openFail s = none ∧ (w.run s f).success = true) :
    runFiles w scripts files = (pairsOf files scripts, none) := by
  induction files with
  | nil => rfl
  | cons f rest ih =>
    simp only [runFiles,
      runScriptsForFile_all_ok w f scripts (h f (List.mem_cons_self f rest)),
      ih (fun g hg => h g (List.mem_cons_of_mem f hg)), pairsOf,
      List.flatMap_cons]

/-- If the scripts before `s` all succeed against `f`, `s` opens but its run
fails, the inner loop stops right after invoking `s` and reports the error
built from the captured stderr of that run. -/
theorem runScriptsForFile_fail (w : World) (f : String)
    (d : List String) (s : String) (r : List String)
    (hd : ∀ x ∈ d, w.openFail x = none ∧ (w.run x f).success = true)
    (ho : w.openFail s = none) (hf : (w.run s f).success = false) :
    runScriptsForFile w f (d ++ s :: r) =
      (d.map (fun x => (x, f)) ++ [(s, f)],
       some ("Unable to execute script: " ++ (w.run s f).stderr)) := by
  induction d with
  | nil => simp only [List.nil_append, runScriptsForFile, ho, hf,
      Bool.false_eq_true, if_neg, not_false_eq_true, List.map_nil]
  | cons x xs ih =>
    obtain ⟨hxo, hxr⟩ := hd x (List.mem_cons_self x xs)
    simp only [List.cons_append, runScriptsForFile, hxo, hxr, if_pos,
      List.append_eq, ih (fun y hy => hd y (List.mem_cons_of_mem x hy)),
      List.map_cons, List.cons_append]

/-- If every pair for the files before `f` succeeds, and against `f` the
scripts before `s` succeed while `s` fails, the loop nest stops right after
invoking `s` on `f` and reports the stderr-carrying error. -/
theorem runFiles_fail (w : World) (fd : List String) (f : String)
    (fr : List String) (d : List String) (s : String) (r : List String)
    (hfd : ∀ g ∈ fd, ∀ x ∈ d ++ s :: r,
      w.openFail x = none ∧ (w.run x g).success = true)
    (hd : ∀ x ∈ d, w.openFail x = none ∧ (w.run x f).success = true)
    (ho : w.openFail s = none) (hf : (w.run s f).success = false) :
    runFiles w (d ++ s :: r) (fd ++ f :: fr) =
      (pairsOf fd (d ++ s :: r) ++ (d.map (fun x => (x, f)) ++ [(s, f)]),
       some ("Unable to execute script: " ++ (w.run s f).stderr)) := by
  induction fd with
  | nil =>
    simp only [List.nil_append, runFiles,
      runScriptsForFile_fail w f d s r hd ho hf, pairsOf, List.flatMap_nil]
  | cons g gs ih =>
    simp only [List.cons_append, runFiles, List.append_eq,
      runScriptsForFile_all_ok w g (d ++ s :: r)
        (hfd g (List.mem_cons_self g gs)),
      ih (fun g' hg' => hfd g' (List.mem_cons_of_mem g hg')), pairsOf,
      List.flatMap_cons, List.append_assoc]

/-- The effective list of script paths the loop nest runs over, when
preparation reaches the loop at all: the configured scripts, extended with
the temporary file when inline commands are configured and creating, writing
and flushing it all succeed. -/
def effScripts (p : Config) (w : World) : Option (List String) :=
  match p.Inline with
  | none => some p.Scripts
  | some cmds =>
    match w.tmpFile with
    | .error _ => none
    | .ok tmp =>
      match firstWriteFailure w cmds with
      | some _ => none
      | none =>
        match w.flushFail with
        | some _ => none
        | none => some (p.Scripts ++ [tmp])

/-- When preparation succeeds, the error and the invocation trace of
`PostProcess` are exactly those of the loop nest over the effective scripts. -/
theorem PostProcess_loop (p : Config) (w : World) (a : InArtifact)
    (fs0 : List String) (scripts : List String)
    (hs : effScripts p w = some scripts) :
    (PostProcess p w a fs0).err = (runFiles w scripts a.files).2 ∧
    (PostProcess p w a fs0).invocations = (runFiles w scripts a.files).1 := by
  cases hin : p.Inline with
  | none =>
    simp only [effScripts, hin, Option.some.injEq] at hs
    subst hs
    simp only [PostProcess, hin, finishLoop]
    cases h2 : (runFiles w p.Scripts a.files).2 <;> simp [h2]
  | some cmds =>
    cases htmp : w.tmpFile with
    | error e =>
      simp only [effScripts, hin, htmp] at hs
      exact Option.noConfusion hs
    | ok tmp =>
      cases hfw : firstWriteFailure w cmds with
      | some im =>
        simp only [effScripts, hin, htmp, hfw] at hs
        exact Option.noConfusion hs
      | none =>
        cases hff : w.flushFail with
        | some m =>
          simp only [effScripts, hin, htmp, hfw, hff] at hs
          exact Option.noConfusion hs
        | none =>
          simp only [effScripts, hin, htmp, hfw, hff,
            Option.some.injEq] at hs
          subst hs
          simp only [PostProcess, hin, htmp, hfw, hff, finishLoop]
          cases h2 : (runFiles w (p.Scripts ++ [tmp]) a.files).2 <;>
            simp [h2]

/-- Number of pairs in the file-major invocation sequence. -/
theorem pairsOf_length (files scripts : List String) :
    (pairsOf files scripts).length = files.length * scripts.length := by
  induction files with
  | nil => simp [pairsOf]
  | cons f fs ih =>
    simp only [pairsOf, List.flatMap_cons, List.length_append,
      List.length_map, List.length_cons] at ih ⊢
    rw [ih]; ring

/-! ### Claims -/

/-- C5: on a fully successful run, `PostProcess` invokes the shell once per
(file, script) pair, `files × scripts` many times, in file-major order:
all scripts in order for the first file, then for the second, and so on. -/
theorem claim5_file_major_order (p : Config) (w : World) (a : InArtifact)
    (fs0 : List String) (scripts : List String)
    (hs : effScripts p w = some scripts)
    (hopen : ∀ s ∈ scripts, w.openFail s = none)
    (hrun : ∀ s ∈ scripts, ∀ f ∈ a.files, (w.run s f).success = true) :
    (PostProcess p w a fs0).invocations = pairsOf a.files scripts ∧
    (PostProcess p w a fs0).invocations.length =
      a.files.length * scripts.length := by
  have h := PostProcess_loop p w a fs0 scripts hs
  have hall : ∀ f ∈ a.files, ∀ s ∈ scripts,
      w.openFail s = none ∧ (w.run s f).success = true :=
    fun f hf s hsx => ⟨hopen s hsx, hrun s hsx f hf⟩
  rw [h.2, runFiles_all_ok w scripts a.files hall]
  exact ⟨rfl, pairsOf_length a.files scripts⟩

def cfg5w : Config :=
  ⟨none, "/bin/sh", "", [], ["s1", "s2"], "", false, "bn", "bt"⟩

def world5w : World :=
  ⟨Except.ok "/tmp/t", none, none, fun _ => none,
   fun _ _ => ⟨true, "", ""⟩, "nm", "op"⟩

theorem claim5_witness :
    (PostProcess cfg5w world5w ⟨["f1", "f2"], "b"⟩ []).invocations =
      [("s1", "f1"), ("s2", "f1"), ("s1", "f2"), ("s2", "f2")] ∧
    (PostProcess cfg5w world5w ⟨["f1", "f2"], "b"⟩ []).invocations.length =
      2 * 2 := by
  have h := claim5_file_major_order cfg5w world5w ⟨["f1", "f2"], "b"⟩ []
    ["s1", "s2"] rfl (fun s _ => rfl) (fun s _ f _ => rfl)
  exact ⟨h.1.trans (by decide), h.2⟩

/-- C2: at the first failing invocation (every earlier pair in file-major
order opened and ran successfully, this one's run fails), `PostProcess`
returns at once with the error built from that invocation's captured stderr,
and the trace stops with that invocation: no later script or file runs. -/
theorem claim2_abort_on_first_failure (p : Config) (w : World)
    (a : InArtifact) (fs0 : List String) (scripts : List String)
    (fd : List String) (f : String) (fr : List String)
    (d : List String) (s : String) (r : List String)
    (hs : effScripts p w = some scripts)
    (hscripts : scripts = d ++ s :: r)
    (hfiles : a.files = fd ++ f :: fr)
    (hfd : ∀ g ∈ fd, ∀ x ∈ scripts,
      w.openFail x = none ∧ (w.run x g).success = true)
    (hd : ∀ x ∈ d, w.openFail x = none ∧ (w.run x f).success = true)
    (ho : w.openFail s = none) (hf : (w.run s f).success = false) :
    (PostProcess p w a fs0).err =
      some ("Unable to execute script: " ++ (w.run s f).stderr) ∧
    (PostProcess p w a fs0).invocations =
      pairsOf fd scripts ++ (d.map (fun x => (x, f)) ++ [(s, f)]) := by
  subst hscripts
  have h := PostProcess_loop p w a fs0 (d ++ s :: r) hs
  rw [h.1, h.2, hfiles, runFiles_fail w fd f fr d s r hfd hd ho hf]
  exact ⟨rfl, rfl⟩

def world2w : World :=
  ⟨Except.ok "/tmp/t", none, none, fun _ => none,
   fun _ _ => ⟨false, "", "boom"⟩, "nm", "op"⟩

def cfg2w : Config :=
  ⟨none, "/bin/sh", "", [], ["/tmp/s1.sh"], "", false, "bn", "bt"⟩

theorem claim2_witness :
    (PostProcess cfg2w world2w ⟨["/tmp/x.box"], "b"⟩ []).err =
      some "Unable to execute script: boom" ∧
    (PostProcess cfg2w world2w ⟨["/tmp/x.box"], "b"⟩ []).invocations =
      [("/tmp/s1.sh", "/tmp/x.box")] := by
  have h := claim2_abort_on_first_failure cfg2w world2w
    ⟨["/tmp/x.box"], "b"⟩ [] ["/tmp/s1.sh"] [] "/tmp/x.box" [] []
    "/tmp/s1.sh" [] rfl rfl rfl (fun g hg => absurd hg (by simp))
    (fun x hx => absurd hx (by simp)) rfl rfl
  exact ⟨h.1, h.2.trans (by decide)⟩

/-- C4: whenever inline commands are configured and the temporary script file
was created, it no longer exists in the filesystem `PostProcess` leaves
behind, on the success path and on every error path (write failure, flush
failure, open failure, script failure). -/
theorem claim4_temp_file_removed (p : Config) (w : World) (a : InArtifact)
    (fs0 : List String) (cmds : List String) (tmp : String)
    (hin : p.Inline = some cmds) (htmp : w.tmpFile = Except.ok tmp) :
    tmp ∉ (PostProcess p w a fs0).fs := by
  simp only [PostProcess, hin, htmp]
  cases hfw : firstWriteFailure w cmds with
  | some im =>
    obtain ⟨i, m⟩ := im
    simp [List.mem_filter]
  | none =>
    cases hff : w.flushFail with
    | some m => simp [List.mem_filter]
    | none =>
      simp only [finishLoop]
      cases h2 : (runFiles w (p.Scripts ++ [tmp]) a.files).2 <;>
        simp [List.mem_filter]

def cfg4w : Config :=
  ⟨some ["echo a"], "/bin/sh", "", [], [], "", false, "bn", "bt"⟩

theorem claim4_witness :
    "/tmp/packer-shell1" ∉
      (PostProcess cfg4w
        ⟨Except.ok "/tmp/packer-shell1", none, none, fun _ => none,
         fun _ _ => ⟨true, "", ""⟩, "nm", "op"⟩
        ⟨["f1"], "b"⟩ ["f1", "/tmp/packer-shell1"]).fs :=
  claim4_temp_file_removed cfg4w
    ⟨Except.ok "/tmp/packer-shell1", none, none, fun _ => none,
     fun _ _ => ⟨true, "", ""⟩, "nm", "op"⟩
    ⟨["f1"], "b"⟩ ["f1", "/tmp/packer-shell1"] ["echo a"]
    "/tmp/packer-shell1" rfl rfl

/-- C10: on every exit path of `PostProcess` the returned keep flag is the
configured `keep_input_artifact` value, and no exit path returns both a
non-nil artifact and a non-nil error. -/
theorem claim10_keep_flag_every_path (p : Config) (w : World)
    (a : InArtifact) (fs0 : List String) :
    (PostProcess p w a fs0).keep = p.KeepInputArtifact ∧
    ((PostProcess p w a fs0).err = none ∨
      (PostProcess p w a fs0).artifact = none) := by
  cases hin : p.Inline with
  | none =>
    simp only [PostProcess, hin, finishLoop]
    cases h2 : (runFiles w p.Scripts a.files).2 <;> simp [h2]
  | some cmds =>
    cases htmp : w.tmpFile with
    | error e => simp [PostProcess, hin, htmp]
    | ok tmp =>
      cases hfw : firstWriteFailure w cmds with
      | some im =>
        obtain ⟨i, m⟩ := im
        simp [PostProcess, hin, htmp, hfw]
      | none =>
        cases hff : w.flushFail with
        | some m => simp [PostProcess, hin, htmp, hfw, hff]
        | none =>
          simp only [PostProcess, hin, htmp, hfw, hff, finishLoop]
          cases h2 : (runFiles w (p.Scripts ++ [tmp]) a.files).2 <;>
            simp [h2]

theorem join_cons (a : String) (l : List String) :
    String.join (a :: l) = a ++ String.join l :=
  String.ext (by simp)

/-- The buffered writes accumulate, in order, the concatenation of the
written strings after the initial buffer. -/
theorem foldl_write_eq (cmds : List String) (buf : String) :
    cmds.foldl (fun b c => b ++ (c ++ "\n")) buf =
      buf ++ String.join (cmds.map (fun c => c ++ "\n")) := by
  induction cmds generalizing buf with
  | nil => simp [String.join]
  | cons x xs ih =>
    simp only [List.foldl_cons, List.map_cons, ih, join_cons,
      String.append_assoc]

/-- C6: with inline commands configured and temp-file creation, writes and
flush succeeding, the materialized script content is the shebang line
followed by each command terminated by a newline. -/
theorem claim6_inline_content (p : Config) (w : World) (a : InArtifact)
    (fs0 : List String) (cmds : List String) (tmp : String)
    (hin : p.Inline = some cmds) (htmp : w.tmpFile = Except.ok tmp)
    (hw : w.writeFail = none) (hfl : w.flushFail = none) :
    (PostProcess p w a fs0).written =
      some ("#!" ++ p.InlineShebang ++ "\n" ++
        String.join (cmds.map (fun c => c ++ "\n"))) := by
  have hfw : firstWriteFailure w cmds = none := by
    simp [firstWriteFailure, hw]
  simp only [PostProcess, hin, htmp, hfw, hfl, finishLoop]
  cases h2 : (runFiles w (p.Scripts ++ [tmp]) a.files).2 <;>
    simp [h2, materializeInline, foldl_write_eq, String.append_assoc]

def cfg6w : Config :=
  ⟨some ["echo a", "echo b"], "/bin/sh", "", [], [], "", false, "bn", "bt"⟩

def world6w : World :=
  ⟨Except.ok "/tmp/t6", none, none, fun _ => none,
   fun _ _ => ⟨true, "", ""⟩, "nm", "op"⟩

theorem claim6_witness :
    (PostProcess cfg6w world6w ⟨["f1"], "b"⟩ []).written =
      some "#!/bin/sh\necho a\necho b\n" := by
  have h := claim6_inline_content cfg6w world6w ⟨["f1"], "b"⟩ []
    ["echo a", "echo b"] "/tmp/t6" rfl rfl rfl rfl
  exact h.trans (by decide)

def cfgC1 : Config :=
  ⟨none, "/bin/sh", "", [], ["/s.sh"], "", false, "bn", "bt"⟩

def worldC1 : World :=
  ⟨Except.ok "/tmp/t1", none, none, fun _ => none,
   fun _ _ => ⟨true, "", ""⟩, "nm", "op"⟩

def artC1 : InArtifact := ⟨["/tmp/x.box"], "mitchellh.post-processor.vagrant"⟩

/-- C1 fails on the code: on a fully successful run over an input artifact
whose builder id is `"mitchellh.post-processor.vagrant"`, the outgoing
artifact's `BuilderId()` is `""`, because `NewArtifact`'s struct literal
never stores its `builderId` argument (the `BuilderId` field keeps Go's zero
value), even though the call site passes `artifact.BuilderId()`. -/
theorem claim1_output_builder_id_empty :
    (PostProcess cfgC1 worldC1 artC1 []).err = none ∧
    (PostProcess cfgC1 worldC1 artC1 []).artifact.map Artifact.BuilderId =
      some "" ∧
    artC1.builderId = "mitchellh.post-processor.vagrant" :=
  ⟨rfl, rfl, rfl⟩

/-- C8: when `Destroy` succeeds, the filesystem it returns is the input
filesystem with the artifact's stored path removed; in particular the path
no longer exists. -/
theorem claim8_destroy_removes_path (a : Artifact) (fs fs' : List String)
    (h : a.Destroy fs = Except.ok fs') :
    fs' = fs.filter (fun q => q ≠ a.Path) ∧ a.Path ∉ fs' := by
  unfold Artifact.Destroy osRemove at h
  by_cases hmem : a.Path ∈ fs
  · rw [if_pos hmem] at h
    injection h with h
    subst h
    exact ⟨rfl, by simp⟩
  · rw [if_neg hmem] at h
    exact Except.noConfusion h

def artC8 : Artifact := ⟨"/tmp/x.box", "b", "p"⟩

theorem claim8_witness :
    ["/other"] =
      (["/tmp/x.box", "/other"].filter (fun q => q ≠ artC8.Path)) ∧
    artC8.Path ∉ ["/other"] :=
  claim8_destroy_removes_path artC8 ["/tmp/x.box", "/other"] ["/other"] rfl

/-! ### A decomposition of the aggregated `Configure` error list -/

/-- Contribution of the mutual-exclusion check. -/
def mxErrsOf (raw : RawConfig) : List String :=
  if raw.Script ≠ "" ∧ 0 < (raw.Scripts.getD []).length
  then [mutualExclusionMsg] else []

/-- The script list after the single-`script` normalization. -/
def normScripts (raw : RawConfig) : List String :=
  if raw.Script ≠ "" then [raw.Script] else raw.Scripts.getD []

/-- Contribution of the must-specify-one / not-both checks. -/
def presErrsOf (raw : RawConfig) : List String :=
  if (normScripts raw).length = 0 ∧ raw.Inline = none then [mustSpecifyMsg]
  else if 0 < (normScripts raw).length ∧ raw.Inline ≠ none then [notBothMsg]
  else []

/-- Contribution of the per-script `os.Stat` checks. -/
def statErrsOf (raw : RawConfig) (stat : String → Option String) :
    List String :=
  (normScripts raw).filterMap
    (fun path => (stat path).map (fun e => badScriptMsg path e))

/-- Contribution of the environment-variable format checks. -/
def varErrsOf (raw : RawConfig) : List String :=
  ((raw.Vars.getD []).filter varMalformed).map envVarMsg

/-- The whole aggregated error list, in the order the checks append to the
`packer.MultiError`. -/
def configureErrs (raw : RawConfig) (stat : String → Option String) :
    List String :=
  mxErrsOf raw ++ presErrsOf raw ++ statErrsOf raw stat ++ varErrsOf raw

/-- `Configure` returns the whole aggregate exactly when it is non-empty. -/
theorem Configure_eq (raw : RawConfig) (stat : String → Option String) :
    Configure raw stat =
      if 0 < (configureErrs raw stat).length
      then Except.error (configureErrs raw stat)
      else Except.ok ⟨raw.Inline,
        (if raw.InlineShebang = "" then "/bin/sh" else raw.InlineShebang),
        raw.Script, raw.Vars.getD [], normScripts raw, raw.TargetPath,
        raw.KeepInputArtifact, raw.PackerBuildName,
        raw.PackerBuilderType⟩ := rfl

/-- C3: a configuration that violates both the mutual-exclusion rule and the
environment-variable format rule gets one aggregated error report containing
an entry for each of the two violated rules, not just the first one found. -/
theorem claim3_aggregated_error_report (raw : RawConfig)
    (stat : String → Option String) (kv : String)
    (hmx : raw.Script ≠ "" ∧ 0 < (raw.Scripts.getD []).length)
    (hkv : kv ∈ raw.Vars.getD []) (hbad : varMalformed kv = true) :
    ∃ errs, Configure raw stat = Except.error errs ∧
      mutualExclusionMsg ∈ errs ∧ envVarMsg kv ∈ errs := by
  have h1 : mutualExclusionMsg ∈ configureErrs raw stat := by
    unfold configureErrs
    refine List.mem_append_left _ (List.mem_append_left _
      (List.mem_append_left _ ?_))
    unfold mxErrsOf
    rw [if_pos hmx]
    exact List.mem_singleton.mpr rfl
  have h2 : envVarMsg kv ∈ configureErrs raw stat := by
    unfold configureErrs
    apply List.mem_append_right
    exact List.mem_map_of_mem envVarMsg (List.mem_filter.mpr ⟨hkv, hbad⟩)
  refine ⟨configureErrs raw stat, ?_, h1, h2⟩
  rw [Configure_eq, if_pos (List.length_pos_of_mem h1)]

def rawC3 : RawConfig :=
  ⟨none, "", "/a.sh", some ["bogus"], some ["/b.sh"], "", false, "bn", "bt"⟩

theorem claim3_witness :
    ∃ errs, Configure rawC3 (fun _ => none) = Except.error errs ∧
      mutualExclusionMsg ∈ errs ∧ envVarMsg "bogus" ∈ errs :=
  claim3_aggregated_error_report rawC3 (fun _ => none) "bogus"
    (by decide) (by decide) (by decide)

/-- C7 (amended): with both `script` and `scripts` set non-empty, `Configure`
fails and the aggregate contains the mutual-exclusion check's error message,
which reads "Only one of script or scripts can be specified." rather than
containing the words "mutually exclusive". -/
theorem claim7_mutual_exclusion_reported (raw : RawConfig)
    (stat : String → Option String)
    (hs : raw.Script ≠ "") (hss : 0 < (raw.Scripts.getD []).length) :
    ∃ errs, Configure raw stat = Except.error errs ∧
      mutualExclusionMsg ∈ errs := by
  have h1 : mutualExclusionMsg ∈ configureErrs raw stat := by
    unfold configureErrs
    refine List.mem_append_left _ (List.mem_append_left _
      (List.mem_append_left _ ?_))
    unfold mxErrsOf
    rw [if_pos ⟨hs, hss⟩]
    exact List.mem_singleton.mpr rfl
  refine ⟨configureErrs raw stat, ?_, h1⟩
  rw [Configure_eq, if_pos (List.length_pos_of_mem h1)]

def rawC7 : RawConfig :=
  ⟨none, "", "/a.sh", none, some ["/b.sh"], "", false, "bn", "bt"⟩

/-- C7 as literally stated is false on the code: for this configuration with
both `script` and `scripts` non-empty, `Configure` does fail, but no entry of
the aggregated error has the words "mutually exclusive" as a substring — the
message of the violated rule reads "Only one of script or scripts can be
specified." -/
theorem claim7_counterexample :
    rawC7.Script = "/a.sh" ∧ rawC7.Scripts = some ["/b.sh"] ∧
    Configure rawC7 (fun _ => none) =
      Except.error ["Only one of script or scripts can be specified."] ∧
    ¬ ∃ e ∈ ["Only one of script or scripts can be specified."],
        List.IsInfix "mutually exclusive".data e.data := by
  refine ⟨rfl, rfl, rfl, ?_⟩
  decide

theorem claim7_witness :
    ∃ errs, Configure rawC7 (fun _ => none) = Except.error errs ∧
      mutualExclusionMsg ∈ errs :=
  claim7_mutual_exclusion_reported rawC7 (fun _ => none)
    (by decide) (by decide)

/-- `pairsOf` over a single script is one invocation of it per file. -/
theorem pairsOf_singleton (files : List String) (s : String) :
    pairsOf files [s] = files.map (fun f => (s, f)) := by
  induction files with
  | nil => rfl
  | cons f fs ih =>
    have step : pairsOf (f :: fs) [s] = [(s, f)] ++ pairsOf fs [s] := rfl
    rw [step, ih]
    rfl

/-- C9: an inline list that is present but empty (with no script or scripts
given and well-formed variables) passes `Configure` — the must-specify-one
check tests presence of the inline list, not non-emptiness — and the
subsequent `PostProcess` materializes a temporary script consisting of only
the shebang line and runs it once per artifact file. -/
theorem claim9_present_empty_inline (raw : RawConfig)
    (stat : String → Option String) (w : World) (a : InArtifact)
    (fs0 : List String) (tmp : String)
    (hin : raw.Inline = some []) (hscr : raw.Script = "")
    (hss : raw.Scripts.getD [] = [])
    (hv : ∀ kv ∈ raw.Vars.getD [], varMalformed kv = false)
    (htmp : w.tmpFile = Except.ok tmp) (hw : w.writeFail = none)
    (hfl : w.flushFail = none)
    (hopen : ∀ s, w.openFail s = none)
    (hrun : ∀ s f, (w.run s f).success = true) :
    ∃ cfg, Configure raw stat = Except.ok cfg ∧ cfg.Inline = some [] ∧
      cfg.Scripts = [] ∧
      (PostProcess cfg w a fs0).err = none ∧
      (PostProcess cfg w a fs0).written =
        some ("#!" ++ cfg.InlineShebang ++ "\n") ∧
      (PostProcess cfg w a fs0).invocations =
        a.files.map (fun f => (tmp, f)) := by
  have hns : normScripts raw = [] := by
    unfold normScripts
    rw [if_neg (by simp [hscr]), hss]
  have herrs : configureErrs raw stat = [] := by
    unfold configureErrs mxErrsOf presErrsOf statErrsOf varErrsOf
    rw [if_neg (by simp [hscr]), hns]
    have hvnil : (raw.Vars.getD []).filter varMalformed = [] :=
      List.filter_eq_nil_iff.mpr (fun kv hkv => by simp [hv kv hkv])
    simp [hin, hvnil]
  refine ⟨⟨raw.Inline,
    (if raw.InlineShebang = "" then "/bin/sh" else raw.InlineShebang),
    raw.Script, raw.Vars.getD [], normScripts raw, raw.TargetPath,
    raw.KeepInputArtifact, raw.PackerBuildName, raw.PackerBuilderType⟩,
    ?_, ?_, ?_, ?_, ?_, ?_⟩
  · rw [Configure_eq, if_neg (by rw [herrs]; exact Nat.lt_irrefl 0)]
  · exact hin
  · exact hns
  · have hfw : firstWriteFailure w [] = none := by
      simp [firstWriteFailure, hw]
    have heff : effScripts
        ⟨raw.Inline,
          (if raw.InlineShebang = "" then "/bin/sh" else raw.InlineShebang),
          raw.Script, raw.Vars.getD [], normScripts raw, raw.TargetPath,
          raw.KeepInputArtifact, raw.PackerBuildName,
          raw.PackerBuilderType⟩ w = some (normScripts raw ++ [tmp]) := by
      simp [effScripts, hin, htmp, hfw, hfl]
    have h := PostProcess_loop _ w a fs0 _ heff
    rw [h.1, runFiles_all_ok w _ a.files
      (fun f _ s _ => ⟨hopen s, hrun s f⟩)]
  · have hfw : firstWriteFailure w [] = none := by
      simp [firstWriteFailure, hw]
    simp only [PostProcess, hin, htmp, hfw, hfl, finishLoop]
    cases h2 : (runFiles w (normScripts raw ++ [tmp]) a.files).2 <;>
      simp [h2, materializeInline]
  · have hfw : firstWriteFailure w [] = none := by
      simp [firstWriteFailure, hw]
    have heff : effScripts
        ⟨raw.Inline,
          (if raw.InlineShebang = "" then "/bin/sh" else raw.InlineShebang),
          raw.Script, raw.Vars.getD [], normScripts raw, raw.TargetPath,
          raw.KeepInputArtifact, raw.PackerBuildName,
          raw.PackerBuilderType⟩ w = some (normScripts raw ++ [tmp]) := by
      simp [effScripts, hin, htmp, hfw, hfl]
    have h := PostProcess_loop _ w a fs0 _ heff
    rw [h.2, runFiles_all_ok w _ a.files
      (fun f _ s _ => ⟨hopen s, hrun s f⟩), hns, List.nil_append,
      pairsOf_singleton]

def raw9w : RawConfig := ⟨some [], "", "", none, none, "", false, "bn", "bt"⟩

def world9w : World :=
  ⟨Except.ok "/tmp/t9", none, none, fun _ => none,
   fun _ _ => ⟨true, "", ""⟩, "nm", "op"⟩

theorem claim9_witness :
    ∃ cfg, Configure raw9w (fun _ => none) = Except.ok cfg ∧
      cfg.Inline = some [] ∧ cfg.Scripts = [] ∧
      (PostProcess cfg world9w ⟨["f1", "f2"], "b"⟩ []).err = none ∧
      (PostProcess cfg world9w ⟨["f1", "f2"], "b"⟩ []).written =
        some ("#!" ++ cfg.InlineShebang ++ "\n") ∧
      (PostProcess cfg world9w ⟨["f1", "f2"], "b"⟩ []).invocations =
        [("/tmp/t9", "f1"), ("/tmp/t9", "f2")] := by
  obtain ⟨cfg, h1, h2, h3, h4, h5, h6⟩ :=
    claim9_present_empty_inline raw9w (fun _ => none) world9w
      ⟨["f1", "f2"], "b"⟩ [] "/tmp/t9" rfl rfl rfl
      (by intro kv hkv; simp [raw9w] at hkv)
      rfl rfl rfl (fun s => rfl) (fun s f => rfl)
  exact ⟨cfg, h1, h2, h3, h4, h5, h6.trans (by decide)⟩

end Shell
